import Mathlib

/-!
Verification of the deterministic card-art engine (art.js) and the
card-image renderer (card-image.js) of the ai-for-grandmas repository.

Numeric model: JavaScript numbers are IEEE doubles; here they are
modelled with exact rational arithmetic.  All integer computations of
the source (the rolling hash with its 32-bit wrap, the LCG state
update, loop counts, array indices) are exact in doubles, so the model
is exact there.  The only double roundings are in derived decimal
values (scaled PRNG outputs, opacity values and the like); the claims
under verification never depend on those final rounding bits, and the
rational value is used in their place.  Math.sin and Math.cos are
implementation-approximated in ECMAScript, but pure functions of their
argument in any fixed environment; they are taken as explicit function
parameters (msin, mcos) of every definition that needs them.
Math.PI is the exact rational value of the IEEE double closest to pi.
-/

/-- JS ToInt32: wrap an integer to the signed 32-bit range, as the
bitwise operators of art.js do (h << 5 and | 0). -/
def toInt32 (n : ℤ) : ℤ := (n + 2147483648) % 4294967296 - 2147483648

/-- UTF-16 code units of one character; JS charCodeAt works on UTF-16
code units, with surrogate pairs for code points above 0xFFFF. -/
def charUtf16 (c : Char) : List ℕ :=
  if c.toNat < 65536 then [c.toNat]
  else [55296 + (c.toNat - 65536) / 1024, 56320 + (c.toNat - 65536) % 1024]

/-- The UTF-16 code units of a string, the unit sequence that the JS
loop for (i = 0; i < str.length; i++) str.charCodeAt(i) traverses. -/
def utf16CodeUnits (s : String) : List ℕ := (s.data.map charUtf16).flatten

/-- Nonnegative case of Number.prototype.toFixed: the integer n closest
to q * 10^f, ties to the larger n, then the digit string with f
fractional digits. -/
def toFixedNN (f : ℕ) (q : ℚ) : String :=
  let n := (⌊q * (10 : ℚ) ^ f + 1 / 2⌋).toNat
  if f = 0 then Nat.repr n
  else
    let ip := n / 10 ^ f
    let fp := n % 10 ^ f
    let fs := Nat.repr fp
    Nat.repr ip ++ "." ++ String.mk (List.replicate (f - fs.length) '0') ++ fs

/-- Number.prototype.toFixed(f) on the rational model of a JS double:
per the ECMAScript algorithm the sign is split off first, then the
nonnegative value is rounded to f decimal digits. -/
def toFixed (f : ℕ) (q : ℚ) : String :=
  if q < 0 then "-" ++ toFixedNN f (-q) else toFixedNN f q

/-- JS array indexing arr[i] for a possibly out-of-range or negative
index: undefined is modelled as none. -/
def jsIdx (l : List String) (i : ℤ) : Option String :=
  if i < 0 then none else l.get? i.toNat

/-- JS template-literal stringification of a possibly undefined value. -/
def jsStr (o : Option String) : String := o.getD "undefined"

/-- JS a || b on strings, where undefined (none) and the empty string
are the falsy cases. -/
def jsOr (a b : Option String) : Option String :=
  match a with
  | none => b
  | some s => if s = "" then b else a

/-- Join a list of words with single spaces, the shape every line
produced by the greedy word-wrap of card-image.js has. -/
def joinSp : List String → String
  | [] => ""
  | [w] => w
  | w :: v :: ws => w ++ " " ++ joinSp (v :: ws)

/-- Worker for jsSplit, accumulating the current fragment reversed. -/
def jsSplitGo (sep : Char) : List Char → List Char → List String
  | [], acc => [String.mk acc.reverse]
  | c :: cs, acc =>
    if c = sep then String.mk acc.reverse :: jsSplitGo sep cs []
    else jsSplitGo sep cs (c :: acc)

/-- JS String.prototype.split with a one-character separator: splits at
every occurrence, keeping empty fragments, and maps the empty string to
a one-element list holding the empty string. -/
def jsSplit (sep : Char) (s : String) : List String := jsSplitGo sep s.data []

/-- JS String.prototype.trim: strip leading and trailing whitespace. -/
def jsTrim (s : String) : String :=
  String.mk (((s.data.dropWhile Char.isWhitespace).reverse.dropWhile Char.isWhitespace).reverse)

namespace CardArt

/-- The eight warm palette families of art.js, each five colors. -/
def PALETTES : List (List String) :=
  [["#e8734a", "#f4a261", "#fef0e4", "#264653", "#2a9d8f"],
   ["#6b705c", "#a5a58d", "#ffe8d6", "#cb997e", "#ddbea9"],
   ["#bc6c25", "#dda15e", "#fefae0", "#606c38", "#283618"],
   ["#e07a5f", "#f2cc8f", "#f4f1de", "#3d405b", "#81b29a"],
   ["#d4a373", "#faedcd", "#fefae0", "#e9edc9", "#ccd5ae"],
   ["#b5838d", "#e5989b", "#ffb4a2", "#ffcdb2", "#6d6875"],
   ["#7f5539", "#b08968", "#ddb892", "#e6ccb2", "#ede0d4"],
   ["#588157", "#a3b18a", "#dad7cd", "#344e41", "#3a5a40"]]

/-- One step of the rolling hash of art.js:
h = ((h << 5) - h + str.charCodeAt(i)) | 0.  The shift wraps to int32
before the subtraction, and | 0 wraps the double-exact sum back. -/
def hashStep (h : ℤ) (code : ℕ) : ℤ := toInt32 (toInt32 (h * 32) - h + (code : ℤ))

/-- hash(str) of art.js: fold hashStep from 0 over the UTF-16 code
units, then Math.abs. -/
def hash (str : String) : ℕ := ((utf16CodeUnits str).foldl hashStep 0).natAbs

/-- The state update of the closure returned by seededRandom(seed):
s = (s * 16807 + 0) % 2147483647. -/
def lcgStep (s : ℕ) : ℕ := (s * 16807 + 0) % 2147483647

/-- One call of the closure returned by seededRandom: the state is
updated first, and (s - 1) / 2147483646 of the updated state is
returned.  The pair is (returned value, new state). -/
def seededRandomDraw (s : ℕ) : ℚ × ℕ :=
  let s2 := lcgStep s
  (((s2 : ℚ) - 1) / 2147483646, s2)

/-- The LCG state after n state updates from the initial seed. -/
def lcgIter : ℕ → ℕ → ℕ
  | 0, s => s
  | Nat.succ n, s => lcgStep (lcgIter n s)

/-- getPalette(h) of art.js: PALETTES[h % PALETTES.length]. -/
def getPalette (h : ℕ) : List String := PALETTES.getD (h % PALETTES.length) []

/-- The circle markup emitted by the blob, dot-grid and layered-circle
patterns of art.js. -/
def circleStr (cx cy r : ℚ) (color : String) (opacity : ℚ) : String :=
  "<circle cx=\"" ++ toFixed 1 cx ++ "\" cy=\"" ++ toFixed 1 cy ++ "\" r=\"" ++
    toFixed 1 r ++ "\" fill=\"" ++ color ++ "\" opacity=\"" ++ toFixed 2 opacity ++ "\"/>"

/-- A for loop accumulating shapes += body(i) while threading the PRNG
state; the list holds the successive loop-variable values. -/
def strFold (f : ℕ → ℕ → String × ℕ) : List ℕ → ℕ → String × ℕ
  | [], s => ("", s)
  | i :: is, s =>
    let r := f i s
    let rest := strFold f is r.2
    (r.1 ++ rest.1, rest.2)

/-- Same loop as strFold but keeping the per-iteration shape strings as
a list, so the number of emitted primitives can be stated. -/
def listFold (f : ℕ → ℕ → String × ℕ) : List ℕ → ℕ → List String × ℕ
  | [], s => ([], s)
  | i :: is, s =>
    let r := f i s
    let rest := listFold f is r.2
    (r.1 :: rest.1, rest.2)

/-- The loop-variable values of for (x = step; x < bound; x += step)
for a positive step: step, 2 * step, ... below bound. -/
def natSteps (step bound : ℕ) : List ℕ :=
  (List.range ((bound - 1) / step)).map (fun k => (k + 1) * step)

/-- The exact rational value of the IEEE double Math.PI. -/
def jsPI : ℚ := 884279719003555 / 281474976710656

/-- The circles of blobPattern, one per loop iteration, with the final
PRNG state.  Draw order per circle: cx, cy, r, color, opacity. -/
def blobShapes (s : ℕ) (palette : List String) (w h : ℕ) : List String × ℕ :=
  let d := seededRandomDraw s
  let count : ℤ := 3 + ⌊d.1 * 3⌋
  listFold (fun _ s0 =>
    let dcx := seededRandomDraw s0
    let cx := dcx.1 * (w : ℚ)
    let dcy := seededRandomDraw dcx.2
    let cy := dcy.1 * (h : ℚ)
    let dr := seededRandomDraw dcy.2
    let r := 40 + dr.1 * 80
    let dc := seededRandomDraw dr.2
    let color := jsStr (jsIdx palette ⌊dc.1 * (palette.length : ℚ)⌋)
    let dop := seededRandomDraw dc.2
    let opacity := 0.3 + dop.1 * 0.4
    (circleStr cx cy r color opacity, dop.2)) (List.range count.toNat) d.2

/-- blobPattern(rand, palette, w, h) of art.js. -/
def blobPattern (s : ℕ) (palette : List String) (w h : ℕ) : String × ℕ :=
  let r := blobShapes s palette w h
  (String.join r.1, r.2)

/-- geoPattern(rand, palette, w, h) of art.js: rotated rectangles and
triangles.  Draw order per shape: x, y, size, color, opacity, rotation,
branch value; the rectangle branch draws one more value for rx while
its markup is assembled. -/
def geoPattern (s : ℕ) (palette : List String) (w h : ℕ) : String × ℕ :=
  let d := seededRandomDraw s
  let count : ℤ := 4 + ⌊d.1 * 4⌋
  strFold (fun _ s0 =>
    let dx := seededRandomDraw s0
    let x := dx.1 * (w : ℚ)
    let dy := seededRandomDraw dx.2
    let y := dy.1 * (h : ℚ)
    let dsz := seededRandomDraw dy.2
    let size := 30 + dsz.1 * 60
    let dc := seededRandomDraw dsz.2
    let color := jsStr (jsIdx palette ⌊dc.1 * (palette.length : ℚ)⌋)
    let dop := seededRandomDraw dc.2
    let opacity := 0.25 + dop.1 * 0.4
    let drot := seededRandomDraw dop.2
    let rotation := drot.1 * 360
    let dbr := seededRandomDraw drot.2
    if dbr.1 > 0.5 then
      let drx := seededRandomDraw dbr.2
      ("<rect x=\"" ++ toFixed 1 (x - size / 2) ++ "\" y=\"" ++ toFixed 1 (y - size / 2) ++
        "\" width=\"" ++ toFixed 1 size ++ "\" height=\"" ++ toFixed 1 size ++
        "\" fill=\"" ++ color ++ "\" opacity=\"" ++ toFixed 2 opacity ++
        "\" transform=\"rotate(" ++ toFixed 0 rotation ++ " " ++ toFixed 1 x ++ " " ++
        toFixed 1 y ++ ")\" rx=\"" ++ toFixed 1 (drx.1 * 8) ++ "\"/>", drx.2)
    else
      ("<polygon points=\"" ++ toFixed 1 x ++ "," ++ toFixed 1 (y - size / 2) ++ " " ++
        toFixed 1 (x - size / 2) ++ "," ++ toFixed 1 (y + size / 2) ++ " " ++
        toFixed 1 (x + size / 2) ++ "," ++ toFixed 1 (y + size / 2) ++
        "\" fill=\"" ++ color ++ "\" opacity=\"" ++ toFixed 2 opacity ++
        "\" transform=\"rotate(" ++ toFixed 0 rotation ++ " " ++ toFixed 1 x ++ " " ++
        toFixed 1 y ++ ")\"/>", dbr.2)) (List.range count.toNat) d.2

/-- The inner loop of wavePattern over x = 0, 10, ..., w, drawing one
PRNG value per sample point inside the sine argument. -/
def wavePoints (msin : ℚ → ℚ) (w : ℕ) (frequency amplitude y : ℚ) :
    List ℕ → ℕ → String × ℕ
  | [], s => ("", s)
  | x :: xs, s =>
    let d := seededRandomDraw s
    let offset := msin (((x : ℚ) / (w : ℚ)) * jsPI * frequency * 2 + d.1 * 6) * amplitude
    let rest := wavePoints msin w frequency amplitude y xs d.2
    (" L " ++ Nat.repr x ++ " " ++ toFixed 1 (y + offset) ++ rest.1, rest.2)

/-- wavePattern(rand, palette, w, h) of art.js. -/
def wavePattern (msin : ℚ → ℚ) (s : ℕ) (palette : List String) (w h : ℕ) : String × ℕ :=
  let d := seededRandomDraw s
  let lineCount : ℤ := 3 + ⌊d.1 * 4⌋
  strFold (fun i s0 =>
    let y := ((h : ℚ) / ((lineCount : ℚ) + 1)) * ((i : ℚ) + 1)
    let da := seededRandomDraw s0
    let amplitude := 15 + da.1 * 30
    let df := seededRandomDraw da.2
    let frequency := 1 + df.1 * 2
    let dc := seededRandomDraw df.2
    let color := jsStr (jsIdx palette ⌊dc.1 * (palette.length : ℚ)⌋)
    let dsw := seededRandomDraw dc.2
    let strokeWidth := 2 + dsw.1 * 4
    let pts := wavePoints msin w frequency amplitude y
      ((List.range (w / 10 + 1)).map (fun k => k * 10)) dsw.2
    let dop := seededRandomDraw pts.2
    ("<path d=\"" ++ "M 0 " ++ toFixed 1 y ++ pts.1 ++ "\" fill=\"none\" stroke=\"" ++
      color ++ "\" stroke-width=\"" ++ toFixed 1 strokeWidth ++ "\" opacity=\"" ++
      toFixed 2 (0.3 + dop.1 * 0.4) ++ "\" stroke-linecap=\"round\"/>", dop.2))
    (List.range lineCount.toNat) d.2

/-- dotGridPattern(rand, palette, w, h) of art.js: jittered grid dots.
The spacing draw fixes both loop ranges; per dot the draws are jx, jy,
r, color, opacity. -/
def dotGridPattern (s : ℕ) (palette : List String) (w h : ℕ) : String × ℕ :=
  let dsp := seededRandomDraw s
  let spacing : ℤ := 25 + ⌊dsp.1 * 15⌋
  let dj := seededRandomDraw dsp.2
  let jitter := 5 + dj.1 * 10
  strFold (fun x s0 =>
    strFold (fun y s1 =>
      let djx := seededRandomDraw s1
      let jx := (x : ℚ) + (djx.1 - 0.5) * jitter
      let djy := seededRandomDraw djx.2
      let jy := (y : ℚ) + (djy.1 - 0.5) * jitter
      let dr := seededRandomDraw djy.2
      let r := 2 + dr.1 * 6
      let dc := seededRandomDraw dr.2
      let color := jsStr (jsIdx palette ⌊dc.1 * (palette.length : ℚ)⌋)
      let dop := seededRandomDraw dc.2
      (circleStr jx jy r color (0.2 + dop.1 * 0.5), dop.2)) (natSteps spacing.toNat h) s0)
    (natSteps spacing.toNat w) dj.2

/-- arcPattern(rand, palette, w, h) of art.js.  Draw order per arc:
cx, cy, r, startAngle, sweep, color, strokeWidth, then one opacity draw
while the markup is assembled. -/
def arcPattern (msin mcos : ℚ → ℚ) (s : ℕ) (palette : List String) (w h : ℕ) : String × ℕ :=
  let d := seededRandomDraw s
  let count : ℤ := 4 + ⌊d.1 * 4⌋
  strFold (fun _ s0 =>
    let dcx := seededRandomDraw s0
    let cx := dcx.1 * (w : ℚ)
    let dcy := seededRandomDraw dcx.2
    let cy := dcy.1 * (h : ℚ)
    let dr := seededRandomDraw dcy.2
    let r := 30 + dr.1 * 70
    let dsa := seededRandomDraw dr.2
    let startAngle := dsa.1 * 360
    let dswp := seededRandomDraw dsa.2
    let sweep := 60 + dswp.1 * 180
    let dc := seededRandomDraw dswp.2
    let color := jsStr (jsIdx palette ⌊dc.1 * (palette.length : ℚ)⌋)
    let dstw := seededRandomDraw dc.2
    let strokeWidth := 3 + dstw.1 * 6
    let endAngle := startAngle + sweep
    let x1 := cx + r * mcos ((startAngle * jsPI) / 180)
    let y1 := cy + r * msin ((startAngle * jsPI) / 180)
    let x2 := cx + r * mcos ((endAngle * jsPI) / 180)
    let y2 := cy + r * msin ((endAngle * jsPI) / 180)
    let largeArc : ℕ := if sweep > 180 then 1 else 0
    let dop := seededRandomDraw dstw.2
    ("<path d=\"M " ++ toFixed 1 x1 ++ " " ++ toFixed 1 y1 ++ " A " ++ toFixed 1 r ++
      " " ++ toFixed 1 r ++ " 0 " ++ Nat.repr largeArc ++ " 1 " ++ toFixed 1 x2 ++
      " " ++ toFixed 1 y2 ++ "\" fill=\"none\" stroke=\"" ++ color ++
      "\" stroke-width=\"" ++ toFixed 1 strokeWidth ++ "\" opacity=\"" ++
      toFixed 2 (0.3 + dop.1 * 0.4) ++ "\" stroke-linecap=\"round\"/>", dop.2))
    (List.range count.toNat) d.2

/-- layeredCirclePattern(rand, palette, w, h) of art.js: the inner loop
runs i = rings down to 0; per ring the draws are color, opacity,
offsetX, offsetY. -/
def layeredCirclePattern (s : ℕ) (palette : List String) (w h : ℕ) : String × ℕ :=
  let d := seededRandomDraw s
  let groups : ℤ := 2 + ⌊d.1 * 2⌋
  strFold (fun _ s0 =>
    let dcx := seededRandomDraw s0
    let cx := (w : ℚ) * 0.2 + dcx.1 * (w : ℚ) * 0.6
    let dcy := seededRandomDraw dcx.2
    let cy := (h : ℚ) * 0.2 + dcy.1 * (h : ℚ) * 0.6
    let dri := seededRandomDraw dcy.2
    let rings : ℤ := 3 + ⌊dri.1 * 3⌋
    let dmr := seededRandomDraw dri.2
    let maxR := 40 + dmr.1 * 50
    strFold (fun j s1 =>
      let i : ℤ := rings - (j : ℤ)
      let r := maxR * (((i : ℚ) + 1) / ((rings : ℚ) + 1))
      let dc := seededRandomDraw s1
      let color := jsStr (jsIdx palette ⌊dc.1 * (palette.length : ℚ)⌋)
      let dop := seededRandomDraw dc.2
      let opacity := 0.15 + dop.1 * 0.3
      let dox := seededRandomDraw dop.2
      let offsetX := (dox.1 - 0.5) * 10
      let doy := seededRandomDraw dox.2
      let offsetY := (doy.1 - 0.5) * 10
      (circleStr (cx + offsetX) (cy + offsetY) r color opacity, doy.2))
      (List.range (rings.toNat + 1)) dmr.2)
    (List.range groups.toNat) d.2

/-- The closed pattern list of art.js.  Math.sin and Math.cos are
supplied to the two patterns that read them. -/
def PATTERNS (msin mcos : ℚ → ℚ) : List (ℕ → List String → ℕ → ℕ → String × ℕ) :=
  [blobPattern, geoPattern, wavePattern msin, dotGridPattern,
   arcPattern msin mcos, layeredCirclePattern]

/-- The fixed markup of generate before the pattern layers: the svg
open tag, the background gradient defs (two palette colors via the JS
|| fallbacks, an angle from the PRNG) and the background rect. -/
def sceneHeader (seed : ℕ) (palette : List String) (w h : ℕ) (gradAngle : ℤ) : String :=
  let bg1 := jsOr (jsIdx palette 2) (jsIdx palette 0)
  let bg2 := jsOr (jsIdx palette 3) (jsIdx palette 1)
  "<svg xmlns=\"http://www.w3.org/2000/svg\" viewBox=\"0 0 " ++ Nat.repr w ++ " " ++
    Nat.repr h ++ "\" preserveAspectRatio=\"xMidYMid slice\">" ++
    "<defs><linearGradient id=\"bg-" ++ Nat.repr seed ++ "\" gradientTransform=\"rotate(" ++
    toString gradAngle ++ ")\">" ++
    "<stop offset=\"0%\" stop-color=\"" ++ jsStr bg1 ++ "\"/>" ++
    "<stop offset=\"100%\" stop-color=\"" ++ jsStr bg2 ++ "\"/>" ++
    "</linearGradient></defs>" ++
    "<rect width=\"" ++ Nat.repr w ++ "\" height=\"" ++ Nat.repr h ++
    "\" fill=\"url(#bg-" ++ Nat.repr seed ++ ")\"/>"

/-- generate(title, type) of art.js.  Stream order as in the source:
the layering decision rand() > 0.4 is the first draw, the gradient
angle the second, then the first (and optionally the second) pattern
consume the rest of the stream. -/
def generate (msin mcos : ℚ → ℚ) (title : String) (type : String) : String :=
  let seed := hash (title ++ type)
  let palette := getPalette seed
  let w : ℕ := 400
  let h : ℕ := 200
  let patternIdx1 := seed % (PATTERNS msin mcos).length
  let patternIdx2 := (seed + 3) % (PATTERNS msin mcos).length
  let dUse := seededRandomDraw seed
  let dAngle := seededRandomDraw dUse.2
  let gradAngle : ℤ := ⌊dAngle.1 * 360⌋
  let p1 := ((PATTERNS msin mcos).getD patternIdx1 blobPattern) dAngle.2 palette w h
  let layers :=
    if dUse.1 > 0.4 then
      p1.1 ++ (((PATTERNS msin mcos).getD patternIdx2 blobPattern) p1.2 palette w h).1
    else p1.1
  sceneHeader seed palette w h gradAngle ++ layers ++ "</svg>"

end CardArt

namespace CardImage

/-- Fixed canvas width of card-image.js. -/
def W : ℕ := 1080

/-- Fixed canvas height of card-image.js. -/
def H : ℕ := 1920

/-- Fixed outer margin of card-image.js. -/
def PAD : ℕ := 80

/-- CONTENT_W = W - PAD * 2. -/
def CONTENT_W : ℕ := W - PAD * 2

/-- The inner card padding, a local constant of generate. -/
def cardPad : ℕ := 60

/-- The body line cap of generate: const maxBodyLines = 16. -/
def maxBodyLines : ℕ := 16

/-- The word loop of wrapText, with the measured width supplied by the
environment-dependent ctx.measureText as the function measure.  The
JS truthiness test on currentLine is the emptiness test. -/
def wrapAux (measure : String → ℚ) (maxWidth : ℚ) :
    List String → List String → String → List String
  | [], lines, currentLine => if currentLine = "" then lines else lines ++ [currentLine]
  | word :: ws, lines, currentLine =>
    let testLine := if currentLine = "" then word else currentLine ++ " " ++ word
    if maxWidth < measure testLine ∧ currentLine ≠ "" then
      wrapAux measure maxWidth ws (lines ++ [currentLine]) word
    else
      wrapAux measure maxWidth ws lines testLine

/-- wrapText(ctx, text, maxWidth) of card-image.js: split on single
spaces (JS split keeps empty fragments), then the greedy word loop. -/
def wrapText (measure : String → ℚ) (text : String) (maxWidth : ℚ) : List String :=
  wrapAux measure maxWidth (jsSplit ' ' text) [] ""

/-- The regex replace(/\n+/g, a single newline) applied to the body:
every maximal run of newlines collapses to one. -/
def collapseNewlineRuns (s : String) : String :=
  String.mk ((s.data.foldl
    (fun (acc : List Char × Bool) c =>
      if c = '\n' then (if acc.2 then acc else (acc.1 ++ ['\n'], true))
      else (acc.1 ++ [c], false)) ([], false)).1)

/-- The bodyLines array that generate builds: paragraphs are the
newline-collapsed body split on newline; every later nonblank
(trimmed) paragraph is preceded by one inserted blank line; each
paragraph is trimmed and word-wrapped at CONTENT_W - cardPad * 2. -/
def bodyLinesOf (measure : String → ℚ) (body : String) : List String :=
  let bodyText := collapseNewlineRuns body
  let bodyParagraphs := jsSplit '\n' bodyText
  bodyParagraphs.enum.foldl
    (fun acc p =>
      let t := jsTrim p.2
      acc ++ (if 0 < p.1 ∧ t ≠ "" then [""] else []) ++
        wrapText measure t ((CONTENT_W - cardPad * 2 : ℕ) : ℚ)) []

/-- visibleBodyLines of generate: bodyLines.slice(0, maxBodyLines). -/
def visibleBodyLines (measure : String → ℚ) (body : String) : List String :=
  (bodyLinesOf measure body).take maxBodyLines

/-- The terminal outcomes of shareCardImage: the native share resolved;
the user cancelled (AbortError) and the function returned silently; the
download fallback ran; or an error escaped to the caller.  The last
constructor is what the spec predicts for non-cancellation failures;
the code never produces it from the share call. -/
inductive ShareOutcome
  | shared
  | cancelled
  | downloaded
  | propagated (name : String)
deriving DecidableEq

/-- Control flow of shareCardImage(card) of card-image.js around the
platform share call: if native file sharing is available the share is
attempted; on success it returns; a caught error returns silently when
its name is AbortError and otherwise falls through to the download
fallback, which also runs when sharing is unavailable.  The share
attempt is modelled by its result, an Except carrying the error name. -/
def shareCardImage (canShareFiles : Bool) (shareResult : Except String Unit) : ShareOutcome :=
  if canShareFiles then
    match shareResult with
    | Except.ok _ => ShareOutcome.shared
    | Except.error n =>
      if n = "AbortError" then ShareOutcome.cancelled else ShareOutcome.downloaded
  else ShareOutcome.downloaded

end CardImage

/-! ## Helper lemmas -/

/-- Each rolling-hash step equals the spec recurrence h * 31 + code
wrapped to the signed 32-bit range: the intermediate int32 wrap of the
shift drops only multiples of 2^32. -/
theorem hashStep_eq (h : ℤ) (code : ℕ) :
    CardArt.hashStep h code = toInt32 (31 * h + (code : ℤ)) := by
  unfold CardArt.hashStep toInt32
  omega

/-- Bezout-style certificate that 16807 is invertible modulo the LCG
modulus: 1407677000 * 16807 = 11017 * 2147483647 + 1. -/
theorem dvd_of_dvd_mul_16807 (s : ℕ) (h : 2147483647 ∣ s * 16807) : 2147483647 ∣ s := by
  have h2 : (2147483647 : ℤ) ∣ (s : ℤ) * 16807 := by exact_mod_cast h
  have key : (s : ℤ) = 1407677000 * ((s : ℤ) * 16807) - 11017 * 2147483647 * (s : ℤ) := by
    ring
  have hd : (2147483647 : ℤ) ∣
      1407677000 * ((s : ℤ) * 16807) - 11017 * 2147483647 * (s : ℤ) :=
    dvd_sub (Dvd.dvd.mul_left h2 1407677000) ⟨11017 * (s : ℤ), by ring⟩
  rw [← key] at hd
  exact_mod_cast hd

/-- If the state is not divisible by the modulus, one LCG step lands in
the interval [1, 2147483646]. -/
theorem lcgStep_bounds (s : ℕ) (h : s % 2147483647 ≠ 0) :
    1 ≤ CardArt.lcgStep s ∧ CardArt.lcgStep s ≤ 2147483646 := by
  have hlt : CardArt.lcgStep s < 2147483647 := Nat.mod_lt _ (by norm_num)
  have hne : CardArt.lcgStep s ≠ 0 := by
    intro h0
    have hdvd : 2147483647 ∣ s * 16807 + 0 := Nat.dvd_of_mod_eq_zero h0
    have hds : 2147483647 ∣ s := dvd_of_dvd_mul_16807 s (by simpa using hdvd)
    obtain ⟨k, rfl⟩ := hds
    exact h (Nat.mul_mod_right 2147483647 k)
  omega

/-- For a state not divisible by the modulus, the value returned by one
draw lies in the half-open unit interval. -/
theorem drawFst_bounds (s : ℕ) (h : s % 2147483647 ≠ 0) :
    0 ≤ (CardArt.seededRandomDraw s).1 ∧ (CardArt.seededRandomDraw s).1 < 1 := by
  obtain ⟨h1, h2⟩ := lcgStep_bounds s h
  have hc1 : (1 : ℚ) ≤ (CardArt.lcgStep s : ℚ) := by exact_mod_cast h1
  have hc2 : ((CardArt.lcgStep s : ℚ)) ≤ 2147483646 := by exact_mod_cast h2
  constructor
  · show 0 ≤ ((CardArt.lcgStep s : ℚ) - 1) / 2147483646
    apply div_nonneg _ (by norm_num)
    linarith
  · show ((CardArt.lcgStep s : ℚ) - 1) / 2147483646 < 1
    rw [div_lt_one (by norm_num)]
    linarith

/-- The step of the divisible case: a state that is a multiple of the
modulus steps to 0. -/
theorem lcgStep_of_dvd (s : ℕ) (h : s % 2147483647 = 0) : CardArt.lcgStep s = 0 := by
  unfold CardArt.lcgStep
  omega

/-- A state not divisible by the modulus steps to a state that is again
not divisible by the modulus. -/
theorem lcgStep_mod_ne (s : ℕ) (h : s % 2147483647 ≠ 0) :
    CardArt.lcgStep s % 2147483647 ≠ 0 := by
  obtain ⟨h1, h2⟩ := lcgStep_bounds s h
  rw [Nat.mod_eq_of_lt (by omega)]
  omega

/-- Non-divisibility by the modulus is preserved by every number of
LCG steps. -/
theorem lcgIter_mod_ne (seed : ℕ) (h : seed % 2147483647 ≠ 0) :
    ∀ n, CardArt.lcgIter n seed % 2147483647 ≠ 0 := by
  intro n
  induction n with
  | zero => exact h
  | succ n ih => exact lcgStep_mod_ne _ ih

/-- A seed divisible by the modulus pins the state to 0 after every
positive number of steps. -/
theorem lcgIter_of_dvd (seed : ℕ) (h : seed % 2147483647 = 0) :
    ∀ n, CardArt.lcgIter (n + 1) seed = 0 := by
  intro n
  induction n with
  | zero => exact lcgStep_of_dvd seed h
  | succ n ih =>
    show CardArt.lcgStep (CardArt.lcgIter (n + 1) seed) = 0
    rw [ih]
    exact lcgStep_of_dvd 0 (by norm_num)

/-- The list produced by listFold has one entry per loop iteration. -/
theorem listFold_length (f : ℕ → ℕ → String × ℕ) :
    ∀ (l : List ℕ) (s : ℕ), ((CardArt.listFold f l s).1).length = l.length := by
  intro l
  induction l with
  | nil => intro s; rfl
  | cons a t ih => intro s; simp [CardArt.listFold, ih]

/-! ## Claim theorems: hash and PRNG (C2, C3, C10) -/

/-- C2: the seed equals the fold of the recurrence h * 31 + charCode
over the UTF-16 units of title ++ category, wrapped per step to the
signed 32-bit range, with the absolute value taken at the end; it is a
non-negative integer, and equal concatenations give equal seeds. -/
theorem CardArt.hash_spec (t c t2 c2 : String) (h : t ++ c = t2 ++ c2) :
    CardArt.hash (t ++ c) =
      ((utf16CodeUnits (t ++ c)).foldl
        (fun (acc : ℤ) (code : ℕ) => toInt32 (31 * acc + (code : ℤ))) 0).natAbs ∧
    0 ≤ (CardArt.hash (t ++ c) : ℤ) ∧
    CardArt.hash (t ++ c) = CardArt.hash (t2 ++ c2) := by
  refine ⟨?_, Int.natCast_nonneg _, by rw [h]⟩
  have hfun : CardArt.hashStep = fun (acc : ℤ) (code : ℕ) => toInt32 (31 * acc + (code : ℤ)) :=
    funext fun a => funext fun b => hashStep_eq a b
  unfold CardArt.hash
  rw [hfun]

/-- Witness for C2 at the concrete split ab ++ cd = abc ++ d. -/
theorem CardArt.hash_spec_witness :
    "ab" ++ "cd" = "abc" ++ "d" ∧ CardArt.hash ("ab" ++ "cd") = CardArt.hash ("abc" ++ "d") :=
  ⟨rfl, (CardArt.hash_spec "ab" "cd" "abc" "d" rfl).2.2⟩

/-- Counterexample to C3 as stated: at seed 0 (reachable, since the
empty string hashes to 0) the first returned value is negative, outside
the claimed interval [0, 1). -/
theorem CardArt.seededRandom_zero_value_negative :
    (CardArt.seededRandomDraw 0).1 = -1 / 2147483646 ∧
    (CardArt.seededRandomDraw 0).1 < 0 ∧ CardArt.hash "" = 0 := by
  refine ⟨?_, ?_, rfl⟩ <;> norm_num [CardArt.seededRandomDraw, CardArt.lcgStep]

/-- C3 (amended): each draw updates the state by
s to (s * 16807) mod 2147483647 and returns (s - 1) / 2147483646 of the
updated state; when the seed is not divisible by 2147483647 the
returned value lies in [0, 1). -/
theorem CardArt.seededRandom_spec (s : ℕ) (h : s % 2147483647 ≠ 0) :
    CardArt.seededRandomDraw s =
      ((((s * 16807 % 2147483647 : ℕ) : ℚ) - 1) / 2147483646, s * 16807 % 2147483647) ∧
    0 ≤ (CardArt.seededRandomDraw s).1 ∧ (CardArt.seededRandomDraw s).1 < 1 := by
  refine ⟨?_, drawFst_bounds s h⟩
  have hs : CardArt.lcgStep s = s * 16807 % 2147483647 := by
    unfold CardArt.lcgStep
    omega
  show (((CardArt.lcgStep s : ℚ) - 1) / 2147483646, CardArt.lcgStep s) = _
  rw [hs]

/-- Witness for C3 (amended) at seed 1. -/
theorem CardArt.seededRandom_spec_witness :
    (1 : ℕ) % 2147483647 ≠ 0 ∧
    0 ≤ (CardArt.seededRandomDraw 1).1 ∧ (CardArt.seededRandomDraw 1).1 < 1 :=
  ⟨by decide, (CardArt.seededRandom_spec 1 (by decide)).2⟩

/-- C10: for a seed not divisible by 2147483647 the LCG state is in
[1, 2147483646] after every step and every returned value is in [0, 1);
the step preserves the set [1, 2147483646]; for a seed divisible by
2147483647 (for example 0 = hash of the empty string) the state is 0
after every step and every returned value is -1 / 2147483646, which is
negative. -/
theorem CardArt.lcg_invariant (seed n : ℕ) :
    (seed % 2147483647 ≠ 0 →
      (1 ≤ CardArt.lcgIter (n + 1) seed ∧ CardArt.lcgIter (n + 1) seed ≤ 2147483646) ∧
      0 ≤ (CardArt.seededRandomDraw (CardArt.lcgIter n seed)).1 ∧
      (CardArt.seededRandomDraw (CardArt.lcgIter n seed)).1 < 1) ∧
    (seed % 2147483647 = 0 →
      CardArt.lcgIter (n + 1) seed = 0 ∧
      (CardArt.seededRandomDraw (CardArt.lcgIter n seed)).1 = -1 / 2147483646 ∧
      ((-1 : ℚ) / 2147483646) < 0) ∧
    CardArt.hash "" = 0 ∧
    (∀ s, 1 ≤ s → s ≤ 2147483646 →
      1 ≤ CardArt.lcgStep s ∧ CardArt.lcgStep s ≤ 2147483646) := by
  refine ⟨?_, ?_, rfl, ?_⟩
  · intro h
    have hmod := lcgIter_mod_ne seed h n
    exact ⟨lcgStep_bounds _ hmod, drawFst_bounds _ hmod⟩
  · intro h
    have hz : CardArt.lcgIter (n + 1) seed = 0 := lcgIter_of_dvd seed h n
    have hv : (CardArt.seededRandomDraw (CardArt.lcgIter n seed)).1 = -1 / 2147483646 := by
      show ((CardArt.lcgStep (CardArt.lcgIter n seed) : ℚ) - 1) / 2147483646 = -1 / 2147483646
      have : CardArt.lcgStep (CardArt.lcgIter n seed) = 0 := hz
      rw [this]
      norm_num
    exact ⟨hz, hv, by norm_num⟩
  · intro s h1 h2
    apply lcgStep_bounds
    rw [Nat.mod_eq_of_lt (by omega)]
    omega

/-- Witness for C10: the non-divisible side at seed 1, the divisible
side at seed 2147483647. -/
theorem CardArt.lcg_invariant_witness :
    ((1 ≤ CardArt.lcgIter 1 1 ∧ CardArt.lcgIter 1 1 ≤ 2147483646) ∧
      0 ≤ (CardArt.seededRandomDraw (CardArt.lcgIter 0 1)).1 ∧
      (CardArt.seededRandomDraw (CardArt.lcgIter 0 1)).1 < 1) ∧
    (CardArt.lcgIter 1 2147483647 = 0 ∧
      (CardArt.seededRandomDraw (CardArt.lcgIter 0 2147483647)).1 = -1 / 2147483646 ∧
      ((-1 : ℚ) / 2147483646) < 0) :=
  ⟨(CardArt.lcg_invariant 1 0).1 (by decide),
   (CardArt.lcg_invariant 2147483647 0).2.1 (by decide)⟩

/-! ## Claim theorems: pattern counts and generate (C9, C1, C4, C5) -/

/-- Counterexample to C9 as stated: with the PRNG stream pinned at
state 0 — exactly the stream blobPattern receives from
generate of the empty title and category, whose seed hash("") = 0 maps
to pattern index 0, blobPattern — the count draw is negative, so only
2 circles are emitted, outside the claimed range 3 to 5. -/
theorem CardArt.blobPattern_degenerate_count :
    (CardArt.blobShapes 0 (CardArt.getPalette 0) 400 200).1.length = 2 ∧
    CardArt.hash ("" ++ "") = 0 ∧
    CardArt.hash ("" ++ "") % (CardArt.PATTERNS (fun _ => 0) (fun _ => 0)).length = 0 ∧
    ¬ 3 ≤ (CardArt.blobShapes 0 (CardArt.getPalette 0) 400 200).1.length := by
  have hv : (CardArt.seededRandomDraw 0).1 = -1 / 2147483646 := by
    norm_num [CardArt.seededRandomDraw, CardArt.lcgStep]
  have hfloor : ⌊(CardArt.seededRandomDraw 0).1 * 3⌋ = -1 := by
    rw [hv, Int.floor_eq_iff]
    norm_num
  have hlen : (CardArt.blobShapes 0 (CardArt.getPalette 0) 400 200).1.length =
      (3 + ⌊(CardArt.seededRandomDraw 0).1 * 3⌋).toNat := by
    unfold CardArt.blobShapes
    rw [listFold_length, List.length_range]
  rw [hlen, hfloor]
  refine ⟨by decide, rfl, rfl, by decide⟩

/-- C9 (amended): for every PRNG state not divisible by 2147483647 —
every state reachable from a seed not divisible by 2147483647 — the
blob pattern emits between 3 and 5 circle primitives inclusive. -/
theorem CardArt.blobPattern_count_bounds (s : ℕ) (palette : List String) (w h : ℕ)
    (hs : s % 2147483647 ≠ 0) :
    3 ≤ (CardArt.blobShapes s palette w h).1.length ∧
    (CardArt.blobShapes s palette w h).1.length ≤ 5 := by
  obtain ⟨hv0, hv1⟩ := drawFst_bounds s hs
  have hlen : (CardArt.blobShapes s palette w h).1.length =
      (3 + ⌊(CardArt.seededRandomDraw s).1 * 3⌋).toNat := by
    unfold CardArt.blobShapes
    rw [listFold_length, List.length_range]
  have hfl0 : 0 ≤ ⌊(CardArt.seededRandomDraw s).1 * 3⌋ :=
    Int.floor_nonneg.mpr (mul_nonneg hv0 (by norm_num))
  have hfl2 : ⌊(CardArt.seededRandomDraw s).1 * 3⌋ < 3 := by
    rw [Int.floor_lt]
    push_cast
    nlinarith
  rw [hlen]
  omega

/-- Witness for C9 (amended) at state 1. -/
theorem CardArt.blobPattern_count_bounds_witness :
    (1 : ℕ) % 2147483647 ≠ 0 ∧
    3 ≤ (CardArt.blobShapes 1 (CardArt.getPalette 1) 400 200).1.length ∧
    (CardArt.blobShapes 1 (CardArt.getPalette 1) 400 200).1.length ≤ 5 :=
  ⟨by decide, CardArt.blobPattern_count_bounds 1 (CardArt.getPalette 1) 400 200 (by decide)⟩

/-- C1: generate is a pure function of the (title, category) pair —
equal pairs give identical scene markup; the model has no state, clock
or environment input, so two invocations coincide. -/
theorem CardArt.generate_deterministic (msin mcos : ℚ → ℚ) (t1 c1 t2 c2 : String)
    (h1 : t1 = t2) (h2 : c1 = c2) :
    CardArt.generate msin mcos t1 c1 = CardArt.generate msin mcos t2 c2 := by
  rw [h1, h2]

/-- Witness for C1 at a concrete pair. -/
theorem CardArt.generate_deterministic_witness :
    CardArt.generate (fun _ => 0) (fun _ => 0) "Test Title" "brief" =
      CardArt.generate (fun _ => 0) (fun _ => 0) "Test Title" "brief" :=
  CardArt.generate_deterministic (fun _ => 0) (fun _ => 0) "Test Title" "brief"
    "Test Title" "brief" rfl rfl

/-- C4: the pattern list has 6 entries; generate takes its candidate
patterns at indices seed mod 6 and (seed + 3) mod 6, the layering
decision is the first draw of the stream compared against 0.4, it is
consumed before the gradient-angle draw and before either pattern, the
first pattern starts from the state after those two draws, and the
second pattern layers on top, continuing the stream, exactly when the
deciding value exceeds 0.4. -/
theorem CardArt.generate_pattern_layering (msin mcos : ℚ → ℚ) (t c : String) :
    (CardArt.PATTERNS msin mcos).length = 6 ∧
    CardArt.generate msin mcos t c =
      (let seed := CardArt.hash (t ++ c)
       let dUse := CardArt.seededRandomDraw seed
       let dAngle := CardArt.seededRandomDraw dUse.2
       let palette := CardArt.getPalette seed
       let p1 := ((CardArt.PATTERNS msin mcos).getD (seed % 6) CardArt.blobPattern)
         dAngle.2 palette 400 200
       CardArt.sceneHeader seed palette 400 200 ⌊dAngle.1 * 360⌋ ++
         (if dUse.1 > 0.4 then
            p1.1 ++ (((CardArt.PATTERNS msin mcos).getD ((seed + 3) % 6) CardArt.blobPattern)
              p1.2 palette 400 200).1
          else p1.1) ++ "</svg>") :=
  ⟨rfl, rfl⟩

/-- C5: the palette generate uses is getPalette of the seed, which is
exactly PALETTES[seed mod PALETTES.length], and equal (title, category)
pairs select equal palettes. -/
theorem CardArt.palette_selection (t1 c1 t2 c2 : String) (h1 : t1 = t2) (h2 : c1 = c2) :
    CardArt.getPalette (CardArt.hash (t1 ++ c1)) =
      CardArt.PALETTES.getD (CardArt.hash (t1 ++ c1) % CardArt.PALETTES.length) [] ∧
    CardArt.getPalette (CardArt.hash (t1 ++ c1)) =
      CardArt.getPalette (CardArt.hash (t2 ++ c2)) :=
  ⟨rfl, by rw [h1, h2]⟩

/-- Witness for C5 at a concrete pair. -/
theorem CardArt.palette_selection_witness :
    CardArt.getPalette (CardArt.hash ("Test Title" ++ "brief")) =
      CardArt.PALETTES.getD
        (CardArt.hash ("Test Title" ++ "brief") % CardArt.PALETTES.length) [] ∧
    CardArt.getPalette (CardArt.hash ("Test Title" ++ "brief")) =
      CardArt.getPalette (CardArt.hash ("Test Title" ++ "brief")) :=
  CardArt.palette_selection "Test Title" "brief" "Test Title" "brief" rfl rfl

/-! ## Claim theorems: word wrap (C6) -/

/-- joinSp over a list extended on the right by one word. -/
theorem joinSp_append (l : List String) (w : String) (h : l ≠ []) :
    joinSp (l ++ [w]) = joinSp l ++ " " ++ w := by
  induction l with
  | nil => exact absurd rfl h
  | cons a t ih =>
    cases t with
    | nil => simp [joinSp]
    | cons b t2 =>
      have hstep := ih (by simp)
      show joinSp (a :: ((b :: t2) ++ [w])) = joinSp (a :: b :: t2) ++ " " ++ w
      rw [show a :: ((b :: t2) ++ [w]) = a :: b :: (t2 ++ [w]) from rfl]
      show a ++ " " ++ joinSp (b :: (t2 ++ [w])) = (a ++ " " ++ joinSp (b :: t2)) ++ " " ++ w
      rw [show b :: (t2 ++ [w]) = (b :: t2) ++ [w] from rfl, hstep]
      simp [String.append_assoc]

/-- Dropping then taking inside the first component of an appended
singleton agrees with the same slice of the original list. -/
theorem take_drop_extend (done : List String) (w : String) (i n : ℕ)
    (h : i + n ≤ done.length) :
    ((done ++ [w]).drop i).take n = (done.drop i).take n := by
  rw [List.drop_append_eq_append_drop, List.take_append_eq_append_take]
  have h1 : i - done.length = 0 := by omega
  have h2 : n - (done.drop i).length = 0 := by
    rw [List.length_drop]
    omega
  rw [h1, h2]
  simp

/-- Transport of the per-line invariant along one more processed word. -/
theorem line_inv_extend (measure : String → ℚ) (maxW : ℚ) (done : List String)
    (w l : String)
    (h : (measure l ≤ maxW ∨ l ∈ done) ∧
      ∃ i n, 0 < n ∧ i + n ≤ done.length ∧ l = joinSp ((done.drop i).take n)) :
    (measure l ≤ maxW ∨ l ∈ done ++ [w]) ∧
      ∃ i n, 0 < n ∧ i + n ≤ (done ++ [w]).length ∧
        l = joinSp (((done ++ [w]).drop i).take n) := by
  obtain ⟨hm, i, n, hn, hin, hj⟩ := h
  refine ⟨?_, i, n, hn, by simp; omega, ?_⟩
  · rcases hm with h | h
    · exact Or.inl h
    · exact Or.inr (List.mem_append_left _ h)
  · rw [take_drop_extend done w i n hin]
    exact hj

/-- The running-line invariant, seen as the per-line invariant when the
running line is pushed. -/
theorem cur_inv_to_line (measure : String → ℚ) (maxW : ℚ) (done : List String)
    (cur : String)
    (hm : measure cur ≤ maxW ∨ cur ∈ done)
    (i : ℕ) (hi : i < done.length) (hj : cur = joinSp (done.drop i)) :
    (measure cur ≤ maxW ∨ cur ∈ done) ∧
      ∃ i2 n2, 0 < n2 ∧ i2 + n2 ≤ done.length ∧ cur = joinSp ((done.drop i2).take n2) := by
  refine ⟨hm, i, done.length - i, by omega, by omega, ?_⟩
  have hnd : done.length - i = (done.drop i).length := by rw [List.length_drop]
  rw [hnd, List.take_length]
  exact hj

/-- A freshly started line (a single just-processed word) satisfies the
running-line invariant. -/
theorem newWord_cur_inv (measure : String → ℚ) (maxW : ℚ) (done : List String)
    (w : String) :
    w = "" ∨ ((measure w ≤ maxW ∨ w ∈ done ++ [w]) ∧
      ∃ i, i < (done ++ [w]).length ∧ w = joinSp ((done ++ [w]).drop i)) := by
  right
  refine ⟨Or.inr (by simp), done.length, by simp, ?_⟩
  rw [List.drop_left]
  simp [joinSp]

/-- Appending the next word to the running line preserves its shape as
the space-join of a suffix of the processed words. -/
theorem cur_inv_append (done : List String) (w cur : String) (i : ℕ)
    (hi : i < done.length) (hj : cur = joinSp (done.drop i)) :
    cur ++ " " ++ w = joinSp ((done ++ [w]).drop i) := by
  have h1 : (done ++ [w]).drop i = done.drop i ++ [w] := by
    rw [List.drop_append_eq_append_drop]
    have h0 : i - done.length = 0 := by omega
    rw [h0]
    rfl
  have hne : done.drop i ≠ [] := by
    apply List.ne_nil_of_length_pos
    rw [List.length_drop]
    omega
  rw [h1, joinSp_append (done.drop i) w hne, hj]

/-- Reassociating the processed-plus-pending split of the word list in
the loop postcondition. -/
theorem run_transport (measure : String → ℚ) (maxW : ℚ) (done : List String)
    (w : String) (rest : List String) (l : String)
    (h : (measure l ≤ maxW ∨ l ∈ (done ++ [w]) ++ rest) ∧
      ∃ i n, 0 < n ∧ i + n ≤ ((done ++ [w]) ++ rest).length ∧
        l = joinSp ((((done ++ [w]) ++ rest).drop i).take n)) :
    (measure l ≤ maxW ∨ l ∈ done ++ w :: rest) ∧
      ∃ i n, 0 < n ∧ i + n ≤ (done ++ w :: rest).length ∧
        l = joinSp (((done ++ w :: rest).drop i).take n) := by
  rw [List.append_assoc] at h
  simp only [List.singleton_append] at h
  exact h

/-- Invariant of the greedy word loop of wrapText: every emitted line
either measures within the limit or is a single input word, and every
emitted line is the space-join of a consecutive run of input words. -/
theorem wrapAux_inv (measure : String → ℚ) (maxW : ℚ) :
    ∀ (ws done lines : List String) (cur : String),
      (∀ l ∈ lines,
        (measure l ≤ maxW ∨ l ∈ done) ∧
        ∃ i n, 0 < n ∧ i + n ≤ done.length ∧ l = joinSp ((done.drop i).take n)) →
      (cur = "" ∨
        ((measure cur ≤ maxW ∨ cur ∈ done) ∧
          ∃ i, i < done.length ∧ cur = joinSp (done.drop i))) →
      ∀ l ∈ CardImage.wrapAux measure maxW ws lines cur,
        (measure l ≤ maxW ∨ l ∈ done ++ ws) ∧
        ∃ i n, 0 < n ∧ i + n ≤ (done ++ ws).length ∧
          l = joinSp (((done ++ ws).drop i).take n) := by
  intro ws
  induction ws with
  | nil =>
    intro done lines cur hlines hcur l hl
    rw [List.append_nil]
    simp only [CardImage.wrapAux] at hl
    by_cases hc : cur = ""
    · rw [if_pos hc] at hl
      exact hlines l hl
    · rw [if_neg hc] at hl
      rcases List.mem_append.mp hl with h1 | h2
      · exact hlines l h1
      · have hlc : l = cur := by simpa using h2
        subst hlc
        rcases hcur with hcur | ⟨hm, i, hi, hj⟩
        · exact absurd hcur hc
        · exact cur_inv_to_line measure maxW done l hm i hi hj
  | cons w rest ih =>
    intro done lines cur hlines hcur l hl
    simp only [CardImage.wrapAux] at hl
    by_cases hc0 : cur = ""
    · subst hc0
      have hfalse : ¬ (maxW < measure (if ("" : String) = "" then w
          else "" ++ " " ++ w) ∧ ("" : String) ≠ "") := by simp
      rw [if_neg hfalse, if_pos rfl] at hl
      exact run_transport measure maxW done w rest l (ih (done ++ [w]) lines w
        (fun l2 hl2 => line_inv_extend measure maxW done w l2 (hlines l2 hl2))
        (newWord_cur_inv measure maxW done w) l hl)
    · rcases hcur with hcur0 | ⟨hm, i, hi, hj⟩
      · exact absurd hcur0 hc0
      rw [if_neg hc0] at hl
      by_cases hC : maxW < measure (cur ++ " " ++ w)
      · rw [if_pos ⟨hC, hc0⟩] at hl
        refine run_transport measure maxW done w rest l
          (ih (done ++ [w]) (lines ++ [cur]) w ?_
            (newWord_cur_inv measure maxW done w) l hl)
        intro l2 hl2
        rcases List.mem_append.mp hl2 with h1 | h2
        · exact line_inv_extend measure maxW done w l2 (hlines l2 h1)
        · have : l2 = cur := by simpa using h2
          subst this
          exact line_inv_extend measure maxW done w l2
            (cur_inv_to_line measure maxW done l2 hm i hi hj)
      · rw [if_neg (fun hand => hC hand.1)] at hl
        refine run_transport measure maxW done w rest l
          (ih (done ++ [w]) lines (cur ++ " " ++ w)
            (fun l2 hl2 => line_inv_extend measure maxW done w l2 (hlines l2 hl2))
            ?_ l hl)
        right
        refine ⟨Or.inl (not_lt.mp hC), i, by simp; omega, ?_⟩
        exact cur_inv_append done w cur i hi hj

/-- C6: every line wrapText produces either measures at most the
maximum width or is a single input word (kept whole even when wider
than the limit); and every line is the space-join of a consecutive run
of the input words, so no word is broken mid-word. -/
theorem CardImage.wrapText_sound (measure : String → ℚ) (text : String) (maxW : ℚ)
    (line : String) (h : line ∈ CardImage.wrapText measure text maxW) :
    (measure line ≤ maxW ∨ line ∈ jsSplit ' ' text) ∧
    ∃ i n, 0 < n ∧ i + n ≤ (jsSplit ' ' text).length ∧
      line = joinSp (((jsSplit ' ' text).drop i).take n) := by
  have hres := wrapAux_inv measure maxW (jsSplit ' ' text) [] [] ""
    (by intro l hl; cases hl) (Or.inl rfl) line h
  simpa using hres

/-- Witness for C6 on the text aa bb with a width that forces a break:
the first produced line is aa. -/
theorem CardImage.wrapText_sound_witness :
    (((fun s => (s.length : ℚ)) "aa" ≤ 2 ∨ "aa" ∈ jsSplit ' ' "aa bb") ∧
      ∃ i n, 0 < n ∧ i + n ≤ (jsSplit ' ' "aa bb").length ∧
        "aa" = joinSp (((jsSplit ' ' "aa bb").drop i).take n)) :=
  CardImage.wrapText_sound (fun s => (s.length : ℚ)) "aa bb" 2 "aa" (by decide)

/-! ## Claim theorems: body truncation and share flow (C7, C8) -/

/-- C7: when the wrapped multi-paragraph body yields more lines than
the cap of 16, generate renders exactly the first 16 lines — the slice
bodyLines.slice(0, 16) — with the rest dropped; nothing is appended in
their place, and in every case at most 16 body lines are painted. -/
theorem CardImage.bodyLines_truncated (measure : String → ℚ) (body : String)
    (h : CardImage.maxBodyLines < (CardImage.bodyLinesOf measure body).length) :
    CardImage.visibleBodyLines measure body = (CardImage.bodyLinesOf measure body).take 16 ∧
    (CardImage.visibleBodyLines measure body).length = 16 ∧
    (∀ l ∈ CardImage.visibleBodyLines measure body, l ∈ CardImage.bodyLinesOf measure body) ∧
    ∀ (m2 : String → ℚ) (b2 : String), (CardImage.visibleBodyLines m2 b2).length ≤ 16 := by
  refine ⟨rfl, ?_, ?_, ?_⟩
  · unfold CardImage.visibleBodyLines
    rw [List.length_take]
    unfold CardImage.maxBodyLines at h ⊢
    omega
  · intro l hl
    exact List.mem_of_mem_take hl
  · intro m2 b2
    exact List.length_take_le _ _

/-- Witness for C7: a 17-paragraph body wraps to 33 body lines (16
inserted blanks included), beyond the cap. -/
theorem CardImage.bodyLines_truncated_witness :
    CardImage.maxBodyLines <
      (CardImage.bodyLinesOf (fun _ => 0)
        "a\nb\nc\nd\ne\nf\ng\nh\ni\nj\nk\nl\nm\nn\no\np\nq").length ∧
    (CardImage.visibleBodyLines (fun _ => 0)
        "a\nb\nc\nd\ne\nf\ng\nh\ni\nj\nk\nl\nm\nn\no\np\nq").length = 16 :=
  ⟨by decide,
   (CardImage.bodyLines_truncated (fun _ => 0)
     "a\nb\nc\nd\ne\nf\ng\nh\ni\nj\nk\nl\nm\nn\no\np\nq" (by decide)).2.1⟩

/-- Counterexample to C8 as stated: a share failure whose name is not
AbortError does not escape shareCardImage — the catch swallows it and
the download fallback runs instead of the failure propagating. -/
theorem CardImage.share_failure_not_propagated :
    CardImage.shareCardImage true (Except.error "TypeError") =
      CardImage.ShareOutcome.downloaded ∧
    CardImage.shareCardImage true (Except.error "TypeError") ≠
      CardImage.ShareOutcome.propagated "TypeError" := by
  constructor
  · rfl
  · intro h
    exact CardImage.ShareOutcome.noConfusion h

/-- C8 (amended): a share failure that is not a user cancellation is
caught and the function falls back to triggering a download — it is
not retried as a share and does not propagate; a user cancellation
(AbortError) terminates the operation silently; no outcome of the
share path ever propagates an error to the caller. -/
theorem CardImage.shareCardImage_fallback (name : String) (h : name ≠ "AbortError") :
    CardImage.shareCardImage true (Except.error name) = CardImage.ShareOutcome.downloaded ∧
    CardImage.shareCardImage true (Except.error "AbortError") =
      CardImage.ShareOutcome.cancelled ∧
    ∀ (b : Bool) (r : Except String Unit) (nm : String),
      CardImage.shareCardImage b r ≠ CardImage.ShareOutcome.propagated nm := by
  refine ⟨?_, rfl, ?_⟩
  · simp [CardImage.shareCardImage, h]
  · intro b r nm hcontra
    unfold CardImage.shareCardImage at hcontra
    cases b with
    | false => exact CardImage.ShareOutcome.noConfusion hcontra
    | true =>
      cases r with
      | ok u => exact CardImage.ShareOutcome.noConfusion hcontra
      | error n =>
        by_cases hn : n = "AbortError" <;> simp [hn] at hcontra

/-- Witness for C8 (amended) at the error name TypeError. -/
theorem CardImage.shareCardImage_fallback_witness :
    CardImage.shareCardImage true (Except.error "TypeError") =
      CardImage.ShareOutcome.downloaded ∧
    CardImage.shareCardImage true (Except.error "AbortError") =
      CardImage.ShareOutcome.cancelled :=
  ⟨(CardImage.shareCardImage_fallback "TypeError" (by decide)).1,
   (CardImage.shareCardImage_fallback "TypeError" (by decide)).2.1⟩
